import Mathlib

/-!
Verification of the echo-state storage engine core (the `Echo` class and its
storage adapters) against its natural-language specification.

The development shallowly embeds the JavaScript/TypeScript source:

* JavaScript values are modelled by the mutual inductive `JSVal`/`JSFields`/`JSElems`.
  Object and array nodes carry an allocation id (`Nat`) so that JavaScript
  reference identity (`===` on objects) can be expressed: two nodes denote the
  same heap object exactly when they carry the same id.  All values built in
  this file give distinct ids to distinct allocations.
* `Echo.isEqual` is embedded as `isEqual` (fuel-indexed so that it is
  structurally recursive and computable by the kernel; the fuel
  `jsSize a + jsSize b + 1` always exceeds the recursion depth).
* The container itself (`Echo` of `src/core/Echo.ts`) is embedded as a pure
  state machine over `World` (container fields plus the persistent backends
  keyed by adapter name plus the list of pending hydrate continuations).
  Asynchronous completions (`hydrate`'s continuation after `getItem`) are
  modelled as explicit steps (`runHydrateCompletion`), which makes the
  event-loop interleavings of the source expressible.
* `Set.prototype.forEach` (used to notify listeners) is embedded with the
  ECMAScript tombstone semantics: entries deleted during iteration are
  skipped, entries added during iteration are visited.
-/

/-- JavaScript numbers as far as the claims need them: `NaN` or an integer. -/
inductive JSNum where
  | nan : JSNum
  | int (n : Int) : JSNum
deriving DecidableEq, Repr

mutual
/-- A JavaScript value.  `vobj`/`varr` carry an allocation id modelling the
heap reference; field lists of objects are insertion-ordered, as in JS. -/
inductive JSVal where
  | vnum (n : JSNum) : JSVal
  | vstr (s : String) : JSVal
  | vbool (b : Bool) : JSVal
  | vnull : JSVal
  | vundef : JSVal
  | vobj (id : Nat) (fields : JSFields) : JSVal
  | varr (id : Nat) (elems : JSElems) : JSVal
deriving DecidableEq, Repr

/-- Insertion-ordered own fields of a JS object (keys are unique in JS). -/
inductive JSFields where
  | nil : JSFields
  | cons (k : String) (v : JSVal) (rest : JSFields) : JSFields
deriving DecidableEq, Repr

/-- Elements of a JS array. -/
inductive JSElems where
  | nil : JSElems
  | cons (v : JSVal) (rest : JSElems) : JSElems
deriving DecidableEq, Repr
end

mutual
/-- Node count of a value; used as a fuel bound for `isEqual`. -/
def jsSize : JSVal → Nat
  | .vobj _ fs => jsSizeF fs + 1
  | .varr _ es => jsSizeL es + 1
  | _ => 1

def jsSizeF : JSFields → Nat
  | .nil => 0
  | .cons _ v rest => jsSize v + jsSizeF rest + 1

def jsSizeL : JSElems → Nat
  | .nil => 0
  | .cons v rest => jsSize v + jsSizeL rest + 1
end

/-- Field list as a Lean list of key/value pairs. -/
def toListF : JSFields → List (String × JSVal)
  | .nil => []
  | .cons k v rest => (k, v) :: toListF rest

/-- Element list as a Lean list. -/
def toListL : JSElems → List JSVal
  | .nil => []
  | .cons v rest => v :: toListL rest

/-- JS `obj[k]` on an entries list: first entry with key `k`, else `undefined`. -/
def lookupF : List (String × JSVal) → String → JSVal
  | [], _ => .vundef
  | (k', v) :: rest, k => if k' = k then v else lookupF rest k

/-! ### Decimal index keys

`Object.keys` of a JS array yields the decimal strings "0", "1", ….  We build
them digit by digit; `keyToNat` parses them back, giving injectivity. -/

/-- The decimal digit character for `d < 10`. -/
def digitCh (d : Nat) : Char := Char.ofNat (48 + d)

/-- Decimal digits of `n`, most significant first (`fuel` bounds recursion). -/
def digitsAux : Nat → Nat → List Char
  | 0, _ => []
  | fuel + 1, n =>
    if n < 10 then [digitCh n]
    else digitsAux fuel (n / 10) ++ [digitCh (n % 10)]

/-- The JS string for array index `n` (decimal, no leading zeros). -/
def natKey (n : Nat) : String := ⟨digitsAux (n + 1) n⟩

/-- Numeric value of a digit character. -/
def chVal (c : Char) : Nat := c.toNat - 48

/-- Parse a digit list back to the number it denotes. -/
def parseKey (cs : List Char) : Nat := cs.foldl (fun acc c => acc * 10 + chVal c) 0

/-! ### `Object.keys`-style entries and `Echo.isEqual` -/

/-- Index-keyed entries of array elements starting at index `m`
(`Object.keys` of an array yields decimal index strings). -/
def indexFields : Nat → JSElems → JSFields
  | _, .nil => .nil
  | m, .cons v rest => .cons (natKey m) v (indexFields (m + 1) rest)

/-- Own enumerable entries of a value: fields of an object, index-keyed
elements of an array, nothing otherwise. -/
def entriesOf : JSVal → JSFields
  | .vobj _ fs => fs
  | .varr _ es => indexFields 0 es
  | _ => .nil

/-- The JS test `typeof x === "object"` (true for objects, arrays and `null`). -/
def typeofObject : JSVal → Bool
  | .vnull => true
  | .vobj _ _ => true
  | .varr _ _ => true
  | _ => false

/-- The JS test `x === null`. -/
def isNullV : JSVal → Bool
  | .vnull => true
  | _ => false

/-- JS strict equality `===`: value equality on primitives (`NaN` is unequal
to everything, itself included), reference (allocation-id) equality on
objects and arrays. -/
def strictEq : JSVal → JSVal → Bool
  | .vnum .nan, _ => false
  | _, .vnum .nan => false
  | .vnum a, .vnum b => a == b
  | .vstr a, .vstr b => a == b
  | .vbool a, .vbool b => a == b
  | .vnull, .vnull => true
  | .vundef, .vundef => true
  | .vobj i _, .vobj j _ => i == j
  | .varr i _, .varr j _ => i == j
  | _, _ => false

/-- The method `Echo.isEqual` from `src/core/Echo.ts`, fuel-indexed:

```
if (obj1 === obj2) return true;
if (typeof obj1 !== "object" || typeof obj2 !== "object" ||
    obj1 === null || obj2 === null) return false;
const keys1 = Object.keys(obj1); const keys2 = Object.keys(obj2);
if (keys1.length !== keys2.length) return false;
return keys1.every((key) => keys2.includes(key) && this.isEqual(obj1[key], obj2[key]));
```

Iterating the entries of `obj1` and comparing `kv.2` with `obj2[key]` matches
the source because JS object keys are unique, so `obj1[key]` is the value the
key is paired with.  At fuel `0` the function answers `false`; the wrapper
`isEqual` supplies fuel exceeding every reachable recursion depth. -/
def isEqualF : Nat → JSVal → JSVal → Bool
  | 0, _, _ => false
  | fuel + 1, a, b =>
    if strictEq a b then true
    else if !typeofObject a || !typeofObject b || isNullV a || isNullV b then false
    else
      let e1 := toListF (entriesOf a)
      let e2 := toListF (entriesOf b)
      let ks2 := e2.map Prod.fst
      if e1.length != e2.length then false
      else e1.all (fun kv => ks2.contains kv.1 && isEqualF fuel kv.2 (lookupF e2 kv.1))

/-- Full-fuel `Echo.isEqual`. -/
def isEqual (a b : JSVal) : Bool := isEqualF (jsSize a + jsSize b + 1) a b

/-! ### Spread merge `{ ...a, ...b }` and shallow copy `{ ...a }` -/

/-- Keys of an entries list. -/
def keysOfF (fs : JSFields) : List String := (toListF fs).map Prod.fst

/-- Entries of `a` with values overridden by `b` where `b` has the key. -/
def overrideF : JSFields → JSFields → JSFields
  | .nil, _ => .nil
  | .cons k v rest, upd =>
    .cons k (if (keysOfF upd).contains k then lookupF (toListF upd) k else v)
      (overrideF rest upd)

/-- Entries of `upd` whose keys are new relative to `base`, in order. -/
def newFieldsF : JSFields → JSFields → JSFields
  | .nil, _ => .nil
  | .cons k v rest, base =>
    if (keysOfF base).contains k then newFieldsF rest base
    else .cons k v (newFieldsF rest base)

/-- Concatenation of field lists. -/
def appendF : JSFields → JSFields → JSFields
  | .nil, gs => gs
  | .cons k v rest, gs => .cons k v (appendF rest gs)

/-- The object `{ ...a, ...b }` allocated with fresh id `fid`: keys of `a` in
order (values from `b` where shared), then the new keys of `b` in order.
Children are shared (shallow merge), as in JS. -/
def spreadMerge (fid : Nat) (a b : JSVal) : JSVal :=
  .vobj fid (appendF (overrideF (entriesOf a) (entriesOf b)) (newFieldsF (entriesOf b) (entriesOf a)))

/-- The shallow copy `{ ...a }` allocated with fresh id `fid`. -/
def spreadCopy (fid : Nat) (a : JSVal) : JSVal := .vobj fid (entriesOf a)

mutual
/-- Does the value contain `NaN` at some position? -/
def hasNaN : JSVal → Bool
  | .vnum .nan => true
  | .vobj _ fs => hasNaNF fs
  | .varr _ es => hasNaNL es
  | _ => false

def hasNaNF : JSFields → Bool
  | .nil => false
  | .cons _ v rest => hasNaN v || hasNaNF rest

def hasNaNL : JSElems → Bool
  | .nil => false
  | .cons v rest => hasNaN v || hasNaNL rest
end

/-- No duplicates in a key list. -/
def nodupKeys : List String → Bool
  | [] => true
  | k :: rest => !rest.contains k && nodupKeys rest

mutual
/-- Well-formedness every JS value enjoys: own keys of each object node are
unique (array index keys are unique by construction). -/
def wfKeys : JSVal → Bool
  | .vobj _ fs => nodupKeys (keysOfF fs) && wfKeysF fs
  | .varr _ es => wfKeysL es
  | _ => true

def wfKeysF : JSFields → Bool
  | .nil => true
  | .cons _ v rest => wfKeys v && wfKeysF rest

def wfKeysL : JSElems → Bool
  | .nil => true
  | .cons v rest => wfKeys v && wfKeysL rest
end

mutual
/-- A structurally identical deep copy of a value: every object/array node is
re-allocated with its id shifted by `n`, so (for `0 < n`) no node of the copy
is reference-identical to the corresponding node of the original. -/
def idShift (n : Nat) : JSVal → JSVal
  | .vobj i fs => .vobj (i + n) (idShiftF n fs)
  | .varr i es => .varr (i + n) (idShiftL n es)
  | v => v

def idShiftF (n : Nat) : JSFields → JSFields
  | .nil => .nil
  | .cons k v rest => .cons k (idShift n v) (idShiftF n rest)

def idShiftL (n : Nat) : JSElems → JSElems
  | .nil => .nil
  | .cons v rest => .cons (idShift n v) (idShiftL n rest)
end

/-! ### The `Echo` container as a state machine

Embeds the `Echo` class of `src/core/Echo.ts` together with its persistent
backends.  A storage adapter is identified by its config `name`
(`IndexedDBAdapter` of `src/storage/IndexedDBAdapter.ts` uses `config.name`
both as database name and as record key, so one name addresses one persisted
record).  `backends` maps an adapter name to the persisted record, `none`
meaning no record exists.  Asynchronous writes are applied at issue order,
which is all the verified claims depend on. -/

/-- The `SetOptions` of `Echo.set`. -/
structure SetOptionsM where
  isFromSync : Bool := false
  replace : Bool := false

/-- Observable effects of one `set` call: a persistence write-through, a
`BroadcastChannel` post, and a notification pass over the listeners. -/
structure SetEffects where
  wrote : Bool
  broadcasted : Bool
  notifiedAll : Bool
deriving DecidableEq, Repr

/-- The mutable fields of an `Echo` instance.  `adapter` is the bound storage
adapter's name (`none` models `storageAdapter = null`), `hasSync` models
`syncChannel != null`, `readyPending` models an unresolved `readyPromise`,
and `listeners` is the insertion-ordered listener set. -/
structure EchoM where
  state : JSVal
  defaultState : JSVal
  isInitialized : Bool
  isHydrating : Bool
  adapter : Option String
  hasSync : Bool
  listeners : List Nat
  readyPending : Bool
deriving DecidableEq, Repr

/-- An `Echo` instance plus the world it acts on: the persisted records per
adapter name and the pending `hydrate` continuations (each pinned to the
adapter name captured when `getItem` was issued). -/
structure World where
  echo : EchoM
  backends : String → Option JSVal
  pending : List String

/-- Update one backend record. -/
def writeBackend (bs : String → Option JSVal) (n : String) (v : JSVal) :
    String → Option JSVal :=
  fun q => if q = n then some v else bs q

/-- Delete one backend record (what `IndexedDBAdapter.destroy` does via
`indexedDB.deleteDatabase(this.name)`). -/
def dropBackend (bs : String → Option JSVal) (n : String) : String → Option JSVal :=
  fun q => if q = n then none else bs q

/-- The `Echo` constructor: `this.state = { ...defaultState }`, a resolved
`readyPromise`, no adapter, no sync channel, `isInitialized` left `false`. -/
def mkEchoM (d : JSVal) (fid : Nat) : EchoM :=
  { state := spreadCopy fid d
    defaultState := d
    isInitialized := false
    isHydrating := false
    adapter := none
    hasSync := false
    listeners := []
    readyPending := false }

/-- A freshly constructed container over given backends. -/
def mkWorld (d : JSVal) (fid : Nat) (bs : String → Option JSVal) : World :=
  { echo := mkEchoM d fid, backends := bs, pending := [] }

/-- The method `Echo.set`.  Here `fid` is the allocation id of the merge object
`{ ...this.state, ...newState }` when `replace` is off.  Returns the new
world and the call's effects:

```
const oldState = this.state;
const finalState = options.replace ? newState : { ...this.state, ...newState };
const hasChanged = !this.isEqual(oldState, finalState);
if (!hasChanged) return;
this.state = finalState;
if (!this.isHydrating && this.storageAdapter) this.storageAdapter.setItem(this.state);
if (this.syncChannel && !options.isFromSync && !this.isHydrating) postMessage(...);
this.listeners.forEach((listener) => listener(this.state));
```
-/
def setOp (w : World) (newState : JSVal) (opts : SetOptionsM) (fid : Nat) :
    World × SetEffects :=
  let oldState := w.echo.state
  let finalState := if opts.replace then newState else spreadMerge fid oldState newState
  if isEqual oldState finalState then (w, ⟨false, false, false⟩)
  else
    let wrote := !w.echo.isHydrating && w.echo.adapter.isSome
    let bs :=
      match w.echo.adapter with
      | some n => if w.echo.isHydrating then w.backends else writeBackend w.backends n finalState
      | none => w.backends
    let broadcasted := w.echo.hasSync && !opts.isFromSync && !w.echo.isHydrating
    ({ echo := { w.echo with state := finalState }, backends := bs, pending := w.pending },
      ⟨wrote, broadcasted, true⟩)

/-- The error message of the `current` getter (the source directs the caller
to `getCurrent()` or to awaiting `ready()`). -/
def notReadyMsg : String := "Echo Core: use getCurrent() or await the ready() promise"

/-- The synchronous `current` getter: throws unless `isInitialized`. -/
def currentOp (e : EchoM) : Except String JSVal :=
  if e.isInitialized then .ok e.state else .error notReadyMsg

/-- The method `Echo.cleanup`: closes the sync channel, closes the adapter (both without
touching persisted data), nulls both, and resets `isInitialized`.  The
listener set is not touched. -/
def cleanupOp (e : EchoM) : EchoM :=
  { e with hasSync := false, adapter := none, isInitialized := false }

/-- The method `Echo.destroy`:

```
this.cleanup();
this.storageAdapter?.destroy();
```

The optional chain runs on the adapter field as left by `cleanup()`. -/
def destroyOp (w : World) : World :=
  let e := cleanupOp w.echo
  match e.adapter with
  | some n => { echo := e, backends := dropBackend w.backends n, pending := w.pending }
  | none => { w with echo := e }

/-- The method `Echo.indexed(config)`: cleanup, bind a fresh `IndexedDBAdapter`, start
`hydrate()` (whose synchronous prefix issues `getItem` against the adapter
just bound, leaving the continuation pending), replace `readyPromise`, and
open the sync channel when `config.sync`. -/
def indexedOp (w : World) (name : String) (sync : Bool) : World :=
  let e0 := cleanupOp w.echo
  let e1 := { e0 with adapter := some name, hasSync := sync, readyPending := true }
  { echo := e1, backends := w.backends, pending := w.pending ++ [name] }

/-- The method `Echo.temporary()`: cleanup and a freshly resolved `readyPromise`. -/
def temporaryOp (w : World) : World :=
  { w with echo := { cleanupOp w.echo with readyPending := false } }

/-- The methods `Echo.subscribe` and `Echo.addListener`: `Set.add` on the listener set. -/
def subscribeOp (e : EchoM) (i : Nat) : EchoM :=
  { e with listeners := if e.listeners.contains i then e.listeners else e.listeners ++ [i] }

/-- The continuation of `Echo.hydrate` once the `getItem` issued against
adapter `name` resolves (delivering the record persisted under `name`):

```
const savedState = await this.storageAdapter.getItem<T>();
if (savedState) {
  this.isHydrating = true;
  this.set(savedState);
  this.isHydrating = false;
} else {
  this.state = { ...this.defaultState };
  await this.storageAdapter.setItem(this.state);
}
this.isInitialized = true;
```

The continuation runs against the container's fields as they are at
completion time; no check compares `name` with the currently bound adapter.
When no record exists and the adapter has meanwhile been nulled, `setItem`
throws on `null`, the surrounding `catch` swallows it, and `isInitialized`
stays `false`. -/
def runHydrateCompletion (w : World) (name : String) (fid : Nat) : World :=
  let w0 : World := { w with pending := w.pending.erase name }
  match w0.backends name with
  | some sv =>
    let e1 := { w0.echo with isHydrating := true }
    let r := setOp { w0 with echo := e1 } sv {} fid
    { r.1 with
      echo := { r.1.echo with isHydrating := false, isInitialized := true, readyPending := false } }
  | none =>
    let st := spreadCopy fid w0.echo.defaultState
    let e1 := { w0.echo with state := st }
    match e1.adapter with
    | some m =>
      { echo := { e1 with isInitialized := true, readyPending := false }
        backends := writeBackend w0.backends m st
        pending := w0.pending }
    | none => { w0 with echo := e1 }

/-- The `initSync` message handler for a `state-update` message carrying
`payload`:

```
this.set(event.data.state, { isFromSync: true, replace: true });
if (this.storageAdapter) { await this.storageAdapter.setItem(event.data.state); }
```
-/
def handleUpdateMessage (w : World) (payload : JSVal) (fid : Nat) : World × SetEffects :=
  let r := setOp w payload { isFromSync := true, replace := true } fid
  match r.1.echo.adapter with
  | some m => ({ r.1 with backends := writeBackend r.1.backends m payload }, r.2)
  | none => r

/-! ### The listener set under `Set.prototype.forEach`

`Echo.set` notifies with `this.listeners.forEach(...)` on a JS `Set`.
ECMAScript semantics: elements are visited in insertion order; an element
deleted before being visited is skipped; an element added during iteration is
visited.  We model the set as an insertion-ordered entry list with tombstones
(`false` marks a deleted entry) and the pass as an index walk consuming fuel
(one unit per entry inspected; any fuel at least the final entry count is
enough). -/

/-- A registry mutation a listener can perform while being notified. -/
inductive RegOp where
  | add (i : Nat) : RegOp
  | remove (i : Nat) : RegOp
deriving DecidableEq, Repr

/-- Entry list with tombstones: `(listener, stillPresent)`. -/
abbrev RegSet := List (Nat × Bool)

/-- Is `i` currently in the set (has a live entry)? -/
def regMem (s : RegSet) (i : Nat) : Bool := s.any (fun e => e.1 == i && e.2)

/-- JS `Set.add`: no-op when present, else append a live entry. -/
def regAdd (s : RegSet) (i : Nat) : RegSet :=
  if regMem s i then s else s ++ [(i, true)]

/-- JS `Set.delete`: tombstone every entry of `i`. -/
def regRemove (s : RegSet) (i : Nat) : RegSet :=
  s.map (fun e => if e.1 == i then (e.1, false) else e)

def applyRegOp (s : RegSet) : RegOp → RegSet
  | .add i => regAdd s i
  | .remove i => regRemove s i

def applyRegOps (s : RegSet) (ops : List RegOp) : RegSet := ops.foldl applyRegOp s

/-- One notification pass from entry index `idx`, where listener `i`'s
callback performs the registry mutations `β i`.  Returns the listeners
invoked, in order. -/
def forEachFrom (β : Nat → List RegOp) : Nat → RegSet → Nat → List Nat → List Nat
  | 0, _, _, acc => acc.reverse
  | fuel + 1, s, idx, acc =>
    match s[idx]? with
    | none => acc.reverse
    | some (v, alive) =>
      if alive then forEachFrom β fuel (applyRegOps s (β v)) (idx + 1) (v :: acc)
      else forEachFrom β fuel s (idx + 1) acc

/-- The pass `listeners.forEach(listener => listener(state))` with mutating callbacks. -/
def notifyAll (β : Nat → List RegOp) (fuel : Nat) (s : RegSet) : List Nat :=
  forEachFrom β fuel s 0 []

/-- The live entries for an initial, untouched listener list. -/
def liveEntries (ls : List Nat) : RegSet := ls.map (fun i => (i, true))

/-! ### The spec's `switch` operation

`Echo.switch` is declared in the published API (`switch(name: string): this`,
IndexedDB-mode only) and called by `EchoItem.switch`, but its implementation
is not part of the sources; the container model above therefore has no
`switch` step.  The definitions below model it from the spec. -/

/-- The spec's `StorageTarget` variants. -/
inductive SpecMode where
  | temporaryT : SpecMode
  | keyValueT (key : String) (syncOn : Bool) : SpecMode
  | indexedT (database : String) (objectStore : String) (key : String) (syncOn : Bool) : SpecMode
deriving DecidableEq, Repr

/-- Is the target an `IndexedTarget`? -/
def SpecMode.isIndexed : SpecMode → Bool
  | .indexedT _ _ _ _ => true
  | _ => false

/-- A container as far as `switch` observes it: the bound target, the
in-memory value, and whether a hydrate for the current target is in flight. -/
structure SpecContainer where
  mode : SpecMode
  value : JSVal
  hydratePending : Bool
deriving DecidableEq, Repr

/-- The invalid-operation error `switch` raises outside IndexedDB mode. -/
def switchErrMsg : String := "switch() is only available in IndexedDB mode"

/-- Modelled from the spec: `Echo.switch` is absent from the sources (only
its API declaration and the `EchoItem.switch` caller exist).  Per the spec:
`switch(newKey)` is only valid when the current target is an `IndexedTarget`,
otherwise it fails with an invalid-operation error and no state change; when
valid it keeps `database`/`objectStore`, replaces only the key, and
rehydrates. -/
def specSwitch (c : SpecContainer) (newKey : String) : Except String SpecContainer :=
  match c.mode with
  | .indexedT db store _ syncOn =>
    .ok { mode := .indexedT db store newKey syncOn, value := c.value, hydratePending := true }
  | _ => .error switchErrMsg

/-! ### Concrete scenarios used by the claim-level results -/

/-- The record `{x: 1}` persisted under adapter name "A". -/
def recA : JSVal := .vobj 0 (.cons "x" (.vnum (.int 1)) .nil)

/-- The record `{x: 2}` persisted under adapter name "B". -/
def recB : JSVal := .vobj 10 (.cons "x" (.vnum (.int 2)) .nil)

/-- The default state `{x: 0}`. -/
def defX : JSVal := .vobj 1 (.cons "x" (.vnum (.int 0)) .nil)

/-- Backends holding `recA` under "A" and nothing else. -/
def backendsA : String → Option JSVal := fun n => if n = "A" then some recA else none

/-- Backends holding `recA` under "A" and `recB` under "B". -/
def backendsAB : String → Option JSVal :=
  fun n => if n = "A" then some recA else if n = "B" then some recB else none

/-- Scenario for the destroy claim: construct, bind to "A", complete the
hydrate, subscribe listener `0`, then `destroy()`. -/
def destroyedWorld : World :=
  let w1 := indexedOp (mkWorld defX 2 backendsA) "A" false
  let w2 := runHydrateCompletion w1 "A" 3
  destroyOp { w2 with echo := subscribeOp w2.echo 0 }

/-- Rebinding a container to "A" after the destroy scenario and completing
its hydrate. -/
def rebindWorld : World :=
  runHydrateCompletion (indexedOp destroyedWorld "A" false) "A" 4

/-- Scenario for the stale-hydrate claim: bind to "A", immediately rebind to
"B" while the first hydrate is still pending, then deliver B's completion
followed by A's stale completion. -/
def staleWorld : World :=
  let w1 := indexedOp (mkWorld defX 2 backendsAB) "A" false
  let w2 := indexedOp w1 "B" false
  let w3 := runHydrateCompletion w2 "B" 3
  runHydrateCompletion w3 "A" 4

/-- Default state `{a: 1, b: 2}` for the hydrate-merge claim. -/
def defAB : JSVal :=
  .vobj 0 (.cons "a" (.vnum (.int 1)) (.cons "b" (.vnum (.int 2)) .nil))

/-- A persisted record `{a: 5}` missing the top-level key "b". -/
def recPartial : JSVal := .vobj 20 (.cons "a" (.vnum (.int 5)) .nil)

/-- Hydrating a fresh container with default `{a:1, b:2}` from a backend
holding `{a:5}`. -/
def hydratedPartialWorld : World :=
  runHydrateCompletion
    (indexedOp (mkWorld defAB 1 (fun n => if n = "A" then some recPartial else none)) "A" false)
    "A" 2

/-- A ready container bound to adapter "k" whose state is `{a: 1}`. -/
def readyWorld : World :=
  { echo :=
      { mkEchoM (.vobj 0 (.cons "a" (.vnum (.int 1)) .nil)) 1 with
          adapter := some "k", isInitialized := true }
    backends := fun n => if n = "k" then some (.vobj 0 (.cons "a" (.vnum (.int 1)) .nil)) else none
    pending := [] }

/-- A fresh copy of `{a: 1}` (deep-equal to `readyWorld`'s state but a
different allocation). -/
def copyA1 : JSVal := .vobj 7 (.cons "a" (.vnum (.int 1)) .nil)

/-- A fresh object `{a: 2}` (not deep-equal to `readyWorld`'s state). -/
def objA2 : JSVal := .vobj 8 (.cons "a" (.vnum (.int 2)) .nil)

/-- Listener scripts: listener `0` adds listener `1` to the registry while
being notified; everyone else does nothing. -/
def addingScript : Nat → List RegOp := fun i => if i = 0 then [RegOp.add 1] else []

/-- Listener scripts: listener `1` removes listener `0` while being
notified; everyone else does nothing. -/
def removingScript : Nat → List RegOp := fun i => if i = 1 then [RegOp.remove 0] else []

/-- A state `{v: NaN}` for the NaN-reflexivity claim's witness. -/
def nanState : JSVal := .vobj 0 (.cons "v" (.vnum .nan) .nil)

/-- A ready, sync-enabled container bound to adapter "k" holding `nanState`. -/
def nanWorld : World :=
  { echo :=
      { mkEchoM nanState 1 with
          state := nanState, adapter := some "k", hasSync := true, isInitialized := true }
    backends := fun n => if n = "k" then some nanState else none
    pending := [] }

/-! ### Helper lemmas -/

theorem chVal_digitCh (d : Nat) (h : d < 10) : chVal (digitCh d) = d := by
  interval_cases d <;> rfl

theorem parseKey_append (l : List Char) (c : Char) :
    parseKey (l ++ [c]) = parseKey l * 10 + chVal c := by
  unfold parseKey
  rw [List.foldl_append]
  rfl

theorem parseKey_digitsAux : ∀ fuel n, n ≤ fuel → parseKey (digitsAux (fuel + 1) n) = n := by
  intro fuel
  induction fuel with
  | zero =>
    intro n hn
    interval_cases n
    rfl
  | succ f ih =>
    intro n hn
    rw [digitsAux]
    by_cases h : n < 10
    · simp only [if_pos h]
      show parseKey ([] ++ [digitCh n]) = n
      rw [parseKey_append]
      simp [parseKey, chVal_digitCh n h]
    · simp only [if_neg h]
      rw [parseKey_append]
      have hlt : n / 10 ≤ f := by
        have h10 : 10 ≤ n := Nat.le_of_not_lt h
        have : n / 10 < n := Nat.div_lt_self (by omega) (by omega)
        omega
      rw [ih (n / 10) hlt]
      rw [chVal_digitCh (n % 10) (Nat.mod_lt n (by omega))]
      omega

theorem natKey_injective : Function.Injective natKey := by
  intro a b hab
  have ha : parseKey (digitsAux (a + 1) a) = a := parseKey_digitsAux a a le_rfl
  have hb : parseKey (digitsAux (b + 1) b) = b := parseKey_digitsAux b b le_rfl
  have hd : digitsAux (a + 1) a = digitsAux (b + 1) b := by
    have := congrArg String.data hab
    simpa [natKey] using this
  rw [hd, hb] at ha
  exact ha.symm

theorem isEqual_of_strictEq (a b : JSVal) (h : strictEq a b = true) : isEqual a b = true := by
  rw [isEqual, isEqualF, if_pos h]

theorem isEqual_obj_self (i : Nat) (fs : JSFields) :
    isEqual (.vobj i fs) (.vobj i fs) = true := by
  apply isEqual_of_strictEq
  simp [strictEq]

/-! ### Claim-level results -/

/-- C1: the source's `destroy()` runs `cleanup()` first, which nulls
`storageAdapter`, so the subsequent `this.storageAdapter?.destroy()` is a
no-op: the record persisted under "A" survives, the listener set is not
cleared, and a container later re-bound to "A" hydrates to the old record
(`x = 1`), not to the default state (`x = 0`), contradicting the claim and
the method's own doc comment. -/
theorem c1_destroy_keeps_backend_and_listeners :
    destroyedWorld.backends "A" = some recA ∧
    destroyedWorld.echo.listeners = [0] ∧
    lookupF (toListF (entriesOf rebindWorld.echo.state)) "x" = .vnum (.int 1) ∧
    lookupF (toListF (entriesOf defX)) "x" = .vnum (.int 0) := by
  refine ⟨rfl, rfl, rfl, rfl⟩

/-- C2: with `indexed("A")` immediately followed by `indexed("B")` and B's
hydrate completing before A's stale one, both hydrates settle (`pending`
empty) yet the in-memory value holds target A's record (`x = 1`), not target
B's (`x = 2`): the stale completion is applied, not discarded. -/
theorem c2_stale_hydrate_overwrites_new_target :
    staleWorld.echo.adapter = some "B" ∧
    staleWorld.pending = [] ∧
    lookupF (toListF (entriesOf staleWorld.echo.state)) "x" = .vnum (.int 1) ∧
    lookupF (toListF (entriesOf recB)) "x" = .vnum (.int 2) := by
  refine ⟨rfl, rfl, rfl, rfl⟩

/-- C3 counterexample: hydrating with default `{a:1, b:2}` from a persisted
record `{a:5}` does not make the in-memory value the record verbatim:
`hydrate` applies the record through `set` without `replace`, so the missing
top-level key "b" keeps its default value. -/
theorem c3_counterexample :
    hydratedPartialWorld.echo.isInitialized = true ∧
    hydratedPartialWorld.echo.state ≠ recPartial ∧
    lookupF (toListF (entriesOf hydratedPartialWorld.echo.state)) "a" = .vnum (.int 5) ∧
    lookupF (toListF (entriesOf hydratedPartialWorld.echo.state)) "b" = .vnum (.int 2) := by
  refine ⟨rfl, by decide, rfl, rfl⟩

/-- C4: immediately after construction the container is in temporary mode
with a resolved `readyPromise`, yet the synchronous `current` accessor
raises the not-ready error, because the constructor leaves `isInitialized`
false and only `hydrate` ever sets it: the claim's promised behaviour
(returning `DefaultState` without error) does not hold on the code. -/
theorem c4_current_throws_in_temporary_mode (d : JSVal) (fid : Nat) :
    currentOp (mkEchoM d fid) = .error notReadyMsg ∧
    (mkEchoM d fid).readyPending = false :=
  ⟨rfl, rfl⟩

/-- C5: `switch(newKey)` (modelled from the spec, the implementation being
absent from the sources) fails with the invalid-operation error whenever the
current target is not an `IndexedTarget`, and otherwise keeps
`database`/`objectStore`, replaces only the key, and starts a rehydrate. -/
theorem c5_switch_indexed_only (c : SpecContainer) (k : String) :
    (c.mode.isIndexed = false → specSwitch c k = .error switchErrMsg) ∧
    (∀ db store key syncOn, c.mode = .indexedT db store key syncOn →
      specSwitch c k =
        .ok { mode := .indexedT db store k syncOn, value := c.value, hydratePending := true }) := by
  constructor
  · intro h
    cases hm : c.mode with
    | temporaryT => simp [specSwitch, hm]
    | keyValueT key syncOn => simp [specSwitch, hm]
    | indexedT db store key syncOn => rw [hm] at h; simp [SpecMode.isIndexed] at h
  · intro db store key syncOn hm
    simp [specSwitch, hm]

/-- Witness for C5: switching in temporary mode errors; switching an indexed
container replaces only the key and marks a rehydrate pending. -/
theorem c5_switch_indexed_only_witness :
    specSwitch ⟨.temporaryT, .vnull, false⟩ "k2" = .error switchErrMsg ∧
    specSwitch ⟨.indexedT "db" "st" "k1" false, .vnull, false⟩ "k2" =
      .ok ⟨.indexedT "db" "st" "k2" false, .vnull, true⟩ :=
  ⟨(c5_switch_indexed_only ⟨.temporaryT, .vnull, false⟩ "k2").1 rfl,
   (c5_switch_indexed_only ⟨.indexedT "db" "st" "k1" false, .vnull, false⟩ "k2").2
     "db" "st" "k1" false rfl⟩

/-- C6 counterexample: the deep-equality check does relate values of
differing structural types: the record `{"0": 1}` and the array `[1]` are
reported equal (`Object.keys` of the array yields the same key "0"). -/
theorem c6_counterexample :
    isEqual (.vobj 0 (.cons "0" (.vnum (.int 1)) .nil))
      (.varr 1 (.cons (.vnum (.int 1)) .nil)) = true := by
  decide

/-- C7 counterexample: the claimed "exactly one listener notification and
exactly one persistence write" fails when the state passed to
`set(s, {replace: true})` is already deep-equal to the current value: both
calls are then complete no-ops (zero writes, zero notifications). -/
theorem c7_counterexample :
    (setOp readyWorld copyA1 { replace := true } 2).2 = ⟨false, false, false⟩ ∧
    (setOp (setOp readyWorld copyA1 { replace := true } 2).1 copyA1
        { replace := true } 3).2 = ⟨false, false, false⟩ := by
  refine ⟨by decide, by decide⟩

/-- C9 counterexample: a listener added by another listener during the
notification pass is invoked in that same pass (`Set.prototype.forEach`
visits entries appended during iteration), contradicting the claimed
snapshot semantics: here listener 0 adds listener 1, and 1 is called. -/
theorem c9_counterexample : 1 ∈ notifyAll addingScript 4 (liveEntries [0]) := by
  decide

/-- C8: for every `state-update` message received from the change channel,
the handler applies the payload through `set` with `replace` and
`isFromSync` set, so the receiving container's state becomes the payload
(unless deep-equal already) and the resulting `set` call never posts back
onto the channel: zero re-broadcasts per received message. -/
theorem c8_update_message_never_rebroadcast (w : World) (payload : JSVal) (fid : Nat) :
    (handleUpdateMessage w payload fid).2.broadcasted = false ∧
    (handleUpdateMessage w payload fid).1.echo.state =
      (if isEqual w.echo.state payload then w.echo.state else payload) := by
  by_cases h : isEqual w.echo.state payload
  · cases hA : w.echo.adapter with
    | none => simp [handleUpdateMessage, setOp, h, hA]
    | some m => simp [handleUpdateMessage, setOp, h, hA]
  · cases hA : w.echo.adapter with
    | none => simp [handleUpdateMessage, setOp, h, hA]
    | some m => simp [handleUpdateMessage, setOp, h, hA]

/-- C7 amended: for every container world and every state `s` (a JS object,
as the container's states are), calling `set(s, {replace:true})` twice in a
row produces at most one listener notification and at most one persistence
write: the second call is always a complete no-op (no write, no broadcast,
no notification, world unchanged).  After the first call the current value
either already was deep-equal to `s` (the first call was a no-op too) or is
the very object `s`, which is reference-equal to itself, so the second
equality gate always fires. -/
theorem c7_amended_two_sets_at_most_one (w : World) (i fid1 fid2 : Nat) (fs : JSFields) :
    (setOp (setOp w (.vobj i fs) { replace := true } fid1).1 (.vobj i fs)
        { replace := true } fid2).2 = ⟨false, false, false⟩ ∧
    (setOp (setOp w (.vobj i fs) { replace := true } fid1).1 (.vobj i fs)
        { replace := true } fid2).1 = (setOp w (.vobj i fs) { replace := true } fid1).1 ∧
    (if (setOp w (.vobj i fs) { replace := true } fid1).2.notifiedAll then 1 else 0) +
      (if (setOp (setOp w (.vobj i fs) { replace := true } fid1).1 (.vobj i fs)
          { replace := true } fid2).2.notifiedAll then 1 else 0) ≤ 1 ∧
    (if (setOp w (.vobj i fs) { replace := true } fid1).2.wrote then 1 else 0) +
      (if (setOp (setOp w (.vobj i fs) { replace := true } fid1).1 (.vobj i fs)
          { replace := true } fid2).2.wrote then 1 else 0) ≤ 1 := by
  by_cases h : isEqual w.echo.state (.vobj i fs)
  · simp [setOp, h]
  · cases hA : w.echo.adapter with
    | none => simp [setOp, h, hA, isEqual_obj_self]
    | some m =>
      cases hH : w.echo.isHydrating <;> simp [setOp, h, hA, hH, isEqual_obj_self]

/-- C3 amended: when the hydrate completion finds a persisted record `sv`,
the in-memory value becomes the shallow merge `{ ...preState, ...sv }` of
the pre-hydrate value (the copied `DefaultState` right after construction)
with the record — not the record verbatim — and nothing is written back;
when no record exists, the in-memory value becomes a copy of `DefaultState`,
that copy is written through to the backend, and the container is ready. -/
theorem c3_amended_hydrate_merges_record :
    (∀ (w : World) (name : String) (sv : JSVal) (fid : Nat),
      w.backends name = some sv →
      isEqual w.echo.state (spreadMerge fid w.echo.state sv) = false →
        (runHydrateCompletion w name fid).echo.state = spreadMerge fid w.echo.state sv ∧
        (runHydrateCompletion w name fid).backends = w.backends ∧
        (runHydrateCompletion w name fid).echo.isInitialized = true) ∧
    (∀ (w : World) (name m : String) (fid : Nat),
      w.backends name = none →
      w.echo.adapter = some m →
        (runHydrateCompletion w name fid).echo.state = spreadCopy fid w.echo.defaultState ∧
        (runHydrateCompletion w name fid).backends m
          = some (spreadCopy fid w.echo.defaultState) ∧
        (runHydrateCompletion w name fid).echo.isInitialized = true) := by
  constructor
  · intro w name sv fid hb hne
    cases hA : w.echo.adapter with
    | none => simp [runHydrateCompletion, hb, setOp, hne, hA]
    | some m => simp [runHydrateCompletion, hb, setOp, hne, hA]
  · intro w name m fid hb hA
    simp [runHydrateCompletion, hb, hA, writeBackend]

/-- Witness for C3 amended: hydrating default `{a:1,b:2}` from record
`{a:5}` yields the merge `{a:5,b:2}`; hydrating from an empty backend
writes the copied default through. -/
theorem c3_amended_hydrate_merges_record_witness :
    hydratedPartialWorld.echo.state =
      .vobj 2 (.cons "a" (.vnum (.int 5)) (.cons "b" (.vnum (.int 2)) .nil)) ∧
    (runHydrateCompletion (indexedOp (mkWorld defAB 1 (fun _ => none)) "E" false)
        "E" 3).backends "E" =
      some (.vobj 3 (.cons "a" (.vnum (.int 1)) (.cons "b" (.vnum (.int 2)) .nil))) :=
  ⟨(c3_amended_hydrate_merges_record.1
      (indexedOp (mkWorld defAB 1 (fun n => if n = "A" then some recPartial else none)) "A" false)
      "A" recPartial 2 rfl (by decide)).1,
   (c3_amended_hydrate_merges_record.2
      (indexedOp (mkWorld defAB 1 (fun _ => none)) "E" false) "E" "E" 3 rfl rfl).2.1⟩

theorem isEqualF_succ_not_strict (fuel : Nat) (a b : JSVal)
    (hse : strictEq a b = false) (hta : typeofObject a = true) (htb : typeofObject b = true)
    (hna : isNullV a = false) (hnb : isNullV b = false) :
    isEqualF (fuel + 1) a b =
      (if (toListF (entriesOf a)).length != (toListF (entriesOf b)).length then false
       else (toListF (entriesOf a)).all (fun kv =>
         ((toListF (entriesOf b)).map Prod.fst).contains kv.1 &&
           isEqualF fuel kv.2 (lookupF (toListF (entriesOf b)) kv.1))) := by
  rw [isEqualF]
  simp [hse, hta, htb, hna, hnb]

/-- C6 amended: the deep-equality check does relate records and arrays (a
record and an array with the same string key set and recursively equal
values are reported equal, e.g. `{"0":1}` and `[1]`); a record and an array
are reported unequal whenever their key lists differ in length or some key
of the record is absent among the array's index keys. -/
theorem c6_amended_record_array (i j : Nat) (fs : JSFields) (es : JSElems)
    (h : (toListF fs).length ≠ (toListF (indexFields 0 es)).length ∨
         ∃ k ∈ keysOfF fs, k ∉ keysOfF (indexFields 0 es)) :
    isEqual (.vobj i fs) (.varr j es) = false := by
  rw [isEqual, isEqualF_succ_not_strict (jsSize (.vobj i fs) + jsSize (.varr j es))
    (.vobj i fs) (.varr j es) rfl rfl rfl rfl rfl]
  rcases h with hlen | ⟨k, hk, hnk⟩
  · have hb : ((toListF (entriesOf (JSVal.vobj i fs))).length !=
        (toListF (entriesOf (JSVal.varr j es))).length) = true := by
      simpa [entriesOf, bne_iff_ne] using hlen
    rw [if_pos hb]
  · by_cases hlen : (toListF fs).length = (toListF (indexFields 0 es)).length
    · have hb : ((toListF (entriesOf (JSVal.vobj i fs))).length !=
          (toListF (entriesOf (JSVal.varr j es))).length) = false := by
        simpa [entriesOf, bne_iff_ne] using hlen
      rw [hb]
      simp only [Bool.false_eq_true, if_false]
      apply List.all_eq_false.mpr
      obtain ⟨kv, hkvmem, hfst⟩ := List.mem_map.mp hk
      refine ⟨kv, hkvmem, ?_⟩
      have hc : (((toListF (entriesOf (JSVal.varr j es))).map Prod.fst).contains kv.1) = false := by
        rw [hfst]
        simpa [entriesOf, List.contains, keysOfF] using hnk
      intro hcontra
      simp only [Bool.and_eq_true] at hcontra
      rw [hc] at hcontra
      exact Bool.false_ne_true hcontra.1
    · have hb : ((toListF (entriesOf (JSVal.vobj i fs))).length !=
          (toListF (entriesOf (JSVal.varr j es))).length) = true := by
        simpa [entriesOf, bne_iff_ne] using hlen
      rw [if_pos hb]

/-- Witness for C6 amended: `{"a":1}` (keys `["a"]`) and `[]` (no keys) are
reported unequal. -/
theorem c6_amended_record_array_witness :
    isEqual (.vobj 0 (.cons "a" (.vnum (.int 1)) .nil)) (.varr 1 .nil) = false :=
  c6_amended_record_array 0 1 (.cons "a" (.vnum (.int 1)) .nil) .nil (Or.inl (by decide))

theorem toListF_idShiftF (n : Nat) :
    ∀ fs, toListF (idShiftF n fs) = (toListF fs).map (fun kv => (kv.1, idShift n kv.2))
  | .nil => rfl
  | .cons k v rest => by
    simp [toListF, idShiftF, toListF_idShiftF n rest]

theorem indexFields_idShiftL (n : Nat) :
    ∀ (m : Nat) (es : JSElems), indexFields m (idShiftL n es) = idShiftF n (indexFields m es)
  | _, .nil => rfl
  | m, .cons v rest => by
    simp [indexFields, idShiftL, idShiftF, indexFields_idShiftL n (m + 1) rest]

theorem lookupF_map_idShift (n : Nat) (l : List (String × JSVal)) (k : String) :
    lookupF (l.map (fun kv => (kv.1, idShift n kv.2))) k = idShift n (lookupF l k) := by
  induction l with
  | nil => rfl
  | cons kv rest ih =>
    obtain ⟨k', v⟩ := kv
    by_cases h : k' = k
    · simp [lookupF, h]
    · simp [lookupF, h, ih]

theorem key_mem_indexFields :
    ∀ (m : Nat) (es : JSElems) (k : String),
      k ∈ keysOfF (indexFields m es) → ∃ t, m ≤ t ∧ k = natKey t
  | _, .nil, k => by simp [indexFields, keysOfF, toListF]
  | m, .cons v rest, k => by
    intro hk
    simp only [indexFields, keysOfF, toListF, List.map_cons, List.mem_cons] at hk
    rcases hk with h | h
    · exact ⟨m, le_rfl, h⟩
    · obtain ⟨t, ht, hkt⟩ := key_mem_indexFields (m + 1) rest k (by simpa [keysOfF] using h)
      exact ⟨t, by omega, hkt⟩

theorem exists_nan_lookup_fields :
    ∀ fs : JSFields, nodupKeys (keysOfF fs) = true → wfKeysF fs = true → hasNaNF fs = true →
      ∃ kv ∈ toListF fs,
        lookupF (toListF fs) kv.1 = kv.2 ∧ hasNaN kv.2 = true ∧ wfKeys kv.2 = true
  | .nil => by intro _ _ h; simp [hasNaNF] at h
  | .cons k v rest => by
    intro hnd hwf hnan
    have hks : keysOfF (.cons k v rest) = k :: keysOfF rest := by simp [keysOfF, toListF]
    rw [hks, nodupKeys, Bool.and_eq_true] at hnd
    have hkn : k ∉ keysOfF rest := by
      intro hmem
      have h1 := hnd.1
      rw [Bool.not_eq_true'] at h1
      have h2 : (keysOfF rest).contains k = true := List.elem_iff.mpr hmem
      rw [h1] at h2
      cases h2
    rw [wfKeysF, Bool.and_eq_true] at hwf
    rw [hasNaNF, Bool.or_eq_true] at hnan
    rcases hnan with h | h
    · exact ⟨(k, v), by simp [toListF], by simp [toListF, lookupF], h, hwf.1⟩
    · obtain ⟨kv, hmem, hlook, hnan2, hwf2⟩ := exists_nan_lookup_fields rest hnd.2 hwf.2 h
      have hne : k ≠ kv.1 := by
        intro he
        exact hkn (he ▸ by simpa [keysOfF] using List.mem_map_of_mem Prod.fst hmem)
      refine ⟨kv, by simp [toListF]; right; exact hmem, ?_, hnan2, hwf2⟩
      simpa [toListF, lookupF, hne] using hlook

theorem exists_nan_lookup_elems :
    ∀ (m : Nat) (es : JSElems), wfKeysL es = true → hasNaNL es = true →
      ∃ kv ∈ toListF (indexFields m es),
        lookupF (toListF (indexFields m es)) kv.1 = kv.2 ∧
          hasNaN kv.2 = true ∧ wfKeys kv.2 = true
  | _, .nil => by intro _ h; simp [hasNaNL] at h
  | m, .cons v rest => by
    intro hwf hnan
    rw [wfKeysL, Bool.and_eq_true] at hwf
    rw [hasNaNL, Bool.or_eq_true] at hnan
    rcases hnan with h | h
    · exact ⟨(natKey m, v), by simp [indexFields, toListF],
        by simp [indexFields, toListF, lookupF], h, hwf.1⟩
    · obtain ⟨kv, hmem, hlook, hnan2, hwf2⟩ := exists_nan_lookup_elems (m + 1) rest hwf.2 h
      have hne : natKey m ≠ kv.1 := by
        intro he
        have hkm : kv.1 ∈ keysOfF (indexFields (m + 1) rest) := by
          simpa [keysOfF] using List.mem_map_of_mem Prod.fst hmem
        obtain ⟨t, ht, hkt⟩ := key_mem_indexFields (m + 1) rest kv.1 hkm
        have : m = t := natKey_injective (he.symm ▸ hkt : natKey m = natKey t)
        omega
      refine ⟨kv, by simp [indexFields, toListF]; right; exact hmem, ?_, hnan2, hwf2⟩
      simpa [indexFields, toListF, lookupF, hne] using hlook

theorem isEqualF_idShift_of_hasNaN (n : Nat) (hn : 0 < n) :
    ∀ (fuel : Nat) (v : JSVal), wfKeys v = true → hasNaN v = true →
      isEqualF fuel v (idShift n v) = false := by
  intro fuel
  induction fuel with
  | zero => intro v _ _; rfl
  | succ f ih =>
    intro v hwf hnan
    cases v with
    | vnum a =>
      cases a with
      | nan => rw [isEqualF]; simp [idShift, strictEq, typeofObject]
      | int x => simp [hasNaN] at hnan
    | vstr s => simp [hasNaN] at hnan
    | vbool b => simp [hasNaN] at hnan
    | vnull => simp [hasNaN] at hnan
    | vundef => simp [hasNaN] at hnan
    | vobj i fs =>
      rw [show idShift n (.vobj i fs) = .vobj (i + n) (idShiftF n fs) from rfl]
      rw [isEqualF_succ_not_strict f (.vobj i fs) (.vobj (i + n) (idShiftF n fs))
        (by simp [strictEq]; omega) rfl rfl rfl rfl]
      have hmap : toListF (entriesOf (JSVal.vobj (i + n) (idShiftF n fs))) =
          (toListF (entriesOf (JSVal.vobj i fs))).map (fun kv => (kv.1, idShift n kv.2)) := by
        simpa [entriesOf] using toListF_idShiftF n fs
      rw [hmap, List.length_map, bne_self_eq_false]
      simp only [Bool.false_eq_true, if_false]
      rw [wfKeys, Bool.and_eq_true] at hwf
      rw [hasNaN] at hnan
      obtain ⟨kv, hmem, hlook, hnan2, hwf2⟩ := exists_nan_lookup_fields fs hwf.1 hwf.2 hnan
      apply List.all_eq_false.mpr
      refine ⟨kv, by simpa [entriesOf] using hmem, ?_⟩
      intro hcontra
      simp only [Bool.and_eq_true] at hcontra
      have h2 := hcontra.2
      rw [lookupF_map_idShift] at h2
      rw [show entriesOf (JSVal.vobj i fs) = fs from rfl, hlook] at h2
      rw [ih kv.2 hwf2 hnan2] at h2
      cases h2
    | varr i es =>
      rw [show idShift n (.varr i es) = .varr (i + n) (idShiftL n es) from rfl]
      rw [isEqualF_succ_not_strict f (.varr i es) (.varr (i + n) (idShiftL n es))
        (by simp [strictEq]; omega) rfl rfl rfl rfl]
      have hmap : toListF (entriesOf (JSVal.varr (i + n) (idShiftL n es))) =
          (toListF (entriesOf (JSVal.varr i es))).map (fun kv => (kv.1, idShift n kv.2)) := by
        simp only [entriesOf, indexFields_idShiftL]
        exact toListF_idShiftF n (indexFields 0 es)
      rw [hmap, List.length_map, bne_self_eq_false]
      simp only [Bool.false_eq_true, if_false]
      rw [wfKeys] at hwf
      rw [hasNaN] at hnan
      obtain ⟨kv, hmem, hlook, hnan2, hwf2⟩ := exists_nan_lookup_elems 0 es hwf hnan
      apply List.all_eq_false.mpr
      refine ⟨kv, by simpa [entriesOf] using hmem, ?_⟩
      intro hcontra
      simp only [Bool.and_eq_true] at hcontra
      have h2 := hcontra.2
      rw [lookupF_map_idShift] at h2
      rw [show entriesOf (JSVal.varr i es) = indexFields 0 es from rfl, hlook] at h2
      rw [ih kv.2 hwf2 hnan2] at h2
      cases h2

/-- C10: the deep-equality gate is not reflexive in the presence of `NaN`:
for every well-formed state containing `NaN` somewhere, a structurally
identical deep copy (every node freshly allocated, so nowhere
reference-identical) is reported not equal, and therefore
`set(copy, {replace:true})` on a ready, sync-enabled, non-hydrating
container holding that state performs a persistence write, a broadcast and
a listener notification even though no value changed. -/
theorem c10_nan_copy_not_equal (w : World) (v : JSVal) (n fid : Nat) (nm : String)
    (hst : w.echo.state = v) (hn : 0 < n) (hwf : wfKeys v = true) (hnan : hasNaN v = true)
    (hAd : w.echo.adapter = some nm) (hSync : w.echo.hasSync = true)
    (hHyd : w.echo.isHydrating = false) :
    isEqual v (idShift n v) = false ∧
    (setOp w (idShift n v) { replace := true } fid).2 = ⟨true, true, true⟩ := by
  have hne : isEqual v (idShift n v) = false :=
    isEqualF_idShift_of_hasNaN n hn _ v hwf hnan
  refine ⟨hne, ?_⟩
  simp [setOp, hst, hne, hAd, hSync, hHyd]

/-- Witness for C10: the state `{v: NaN}` and its fresh copy are unequal, and
setting the copy on the concrete sync-enabled container writes, broadcasts
and notifies. -/
theorem c10_nan_copy_not_equal_witness :
    isEqual nanState (idShift 5 nanState) = false ∧
    (setOp nanWorld (idShift 5 nanState) { replace := true } 2).2 = ⟨true, true, true⟩ :=
  c10_nan_copy_not_equal nanWorld nanState 5 2 "k" rfl (by decide) (by decide) (by decide)
    rfl rfl rfl

theorem regMem_regRemove_self (s : RegSet) (r : Nat) : regMem (regRemove s r) r = false := by
  simp only [regMem, regRemove, List.any_map]
  rw [List.any_eq_false]
  intro e _
  by_cases h : e.1 == r
  · simp [Function.comp, h]
  · simp [Function.comp, h]

theorem regMem_regRemove_of_false (s : RegSet) (r j : Nat) (h : regMem s r = false) :
    regMem (regRemove s j) r = false := by
  simp only [regMem, regRemove, List.any_map]
  rw [List.any_eq_false]
  intro e he
  have he2 := (List.any_eq_false.mp h) e he
  by_cases hj : e.1 == j
  · simp [Function.comp, hj]
  · simpa [Function.comp, hj] using he2

theorem regMem_regAdd_of_ne (s : RegSet) (r j : Nat) (hne : j ≠ r)
    (h : regMem s r = false) : regMem (regAdd s j) r = false := by
  unfold regAdd
  by_cases hm : regMem s j
  · simp [hm, h]
  · simp only [hm, Bool.false_eq_true, if_false]
    simp only [regMem, List.any_append] at h ⊢
    simp [h, hne]

theorem regMem_applyRegOps_of_false :
    ∀ (ops : List RegOp) (s : RegSet) (r : Nat),
      regMem s r = false → RegOp.add r ∉ ops → regMem (applyRegOps s ops) r = false
  | [], _, _ => by intro h _; exact h
  | op :: rest, s, r => by
    intro h hno
    rw [applyRegOps, List.foldl_cons]
    have hstep : regMem (applyRegOp s op) r = false := by
      cases op with
      | add j =>
        have hj : j ≠ r := by
          intro he
          exact hno (by rw [he]; exact List.mem_cons_self _ _)
        exact regMem_regAdd_of_ne s r j hj h
      | remove j => exact regMem_regRemove_of_false s r j h
    exact regMem_applyRegOps_of_false rest (applyRegOp s op) r hstep
      (fun hm => hno (List.mem_cons_of_mem _ hm))

theorem regMem_applyRegOps_of_remove :
    ∀ (ops : List RegOp) (s : RegSet) (r : Nat),
      RegOp.remove r ∈ ops → RegOp.add r ∉ ops → regMem (applyRegOps s ops) r = false
  | [], _, r => by intro h _; cases h
  | op :: rest, s, r => by
    intro hrem hno
    by_cases hop : op = RegOp.remove r
    · rw [applyRegOps, List.foldl_cons, hop]
      exact regMem_applyRegOps_of_false rest (applyRegOp s (RegOp.remove r)) r
        (regMem_regRemove_self s r) (fun hm => hno (List.mem_cons_of_mem _ hm))
    · have hrem2 : RegOp.remove r ∈ rest := by
        rcases List.mem_cons.mp hrem with h | h
        · exact absurd h.symm hop
        · exact h
      rw [applyRegOps, List.foldl_cons]
      exact regMem_applyRegOps_of_remove rest (applyRegOp s op) r hrem2
        (fun hm => hno (List.mem_cons_of_mem _ hm))

theorem not_mem_forEachFrom :
    ∀ (fuel : Nat) (β : Nat → List RegOp) (s : RegSet) (idx : Nat) (acc : List Nat) (r : Nat),
      regMem s r = false → (∀ i, RegOp.add r ∉ β i) → r ∉ acc →
      r ∉ forEachFrom β fuel s idx acc := by
  intro fuel
  induction fuel with
  | zero =>
    intro β s idx acc r _ _ hacc
    rw [forEachFrom]
    simpa [List.mem_reverse] using hacc
  | succ f ih =>
    intro β s idx acc r hs hβ hacc
    rw [forEachFrom]
    cases hg : s[idx]? with
    | none => simpa [List.mem_reverse] using hacc
    | some e =>
      obtain ⟨v, alive⟩ := e
      cases alive with
      | false =>
        exact ih β s (idx + 1) acc r hs hβ hacc
      | true =>
        have hmem : (v, true) ∈ s := List.getElem?_mem hg
        have hvr : v ≠ r := by
          intro he
          subst he
          have hv : regMem s v = true := by
            rw [regMem, List.any_eq_true]
            exact ⟨(v, true), hmem, by simp⟩
          rw [hv] at hs
          cases hs
        simp only [if_true]
        exact ih β (applyRegOps s (β v)) (idx + 1) (v :: acc) r
          (regMem_applyRegOps_of_false (β v) s r hs (hβ v)) hβ
          (by
            rw [List.mem_cons]
            rintro (h | h)
            · exact hvr h.symm
            · exact hacc h)

/-- C9 amended: during one notification pass, a listener removed before its
turn (here: removed by a script of the first listener, and never re-added)
is not invoked; but a listener added during the pass IS invoked in that same
pass (`Set.prototype.forEach` visits entries appended during iteration), as
exhibited by listener 0 adding listener 1. -/
theorem c9_amended_foreach_semantics :
    (∀ (β : Nat → List RegOp) (fuel a r : Nat) (rest : List Nat),
      a ≠ r → RegOp.remove r ∈ β a → (∀ i, RegOp.add r ∉ β i) →
      r ∉ notifyAll β fuel ((a, true) :: liveEntries rest)) ∧
    1 ∈ notifyAll addingScript 4 (liveEntries [0]) := by
  constructor
  · intro β fuel a r rest hne hrem hnoadd
    cases fuel with
    | zero =>
      rw [notifyAll, forEachFrom]
      simp
    | succ f =>
      rw [notifyAll, forEachFrom]
      simp only [List.getElem?_cons_zero, if_true]
      exact not_mem_forEachFrom f β _ 1 [a] r
        (regMem_applyRegOps_of_remove (β a) _ r hrem (hnoadd a)) hnoadd
        (by simpa using fun h => hne h.symm)
  · decide

/-- Witness for C9 amended: listener 1 removing listener 0 before its turn
keeps 0 uninvoked, and listener 0 adding listener 1 gets 1 invoked. -/
theorem c9_amended_foreach_semantics_witness :
    0 ∉ notifyAll removingScript 5 ((1, true) :: liveEntries [0]) ∧
    1 ∈ notifyAll addingScript 4 (liveEntries [0]) :=
  ⟨c9_amended_foreach_semantics.1 removingScript 5 1 0 [0] (by decide) (by decide)
      (by
        intro i
        by_cases h : i = 1
        · rw [h]; simp [removingScript]
        · simp [removingScript, h]),
   c9_amended_foreach_semantics.2⟩
